import Mathlib

/-!
# Shallow embedding of the CERN Keycloak authentication core

Embeds `backend/mlplayground/utils/rest_framework_cern_sso/authentication.py`:
the module-level OIDC clients and client registry, the client-secret
authenticator, the bearer authenticator with its public/confidential
variants, and the header-parsing helpers.  The sibling modules
`backends.py`, `token.py`, `user.py` and `exceptions.py` are not part of
the sources; the pieces of them this file needs (the OIDC client record,
the token state machine with `validate`, the user wrapper, and the
`AuthenticationFailed` exception) are modelled from the specification and
say so in their doc comments.

Machine-level conventions: Python dicts of headers become association
lists; Python exceptions become `Except` errors; network effects (token
issuance, signature verification, unverified decoding) become an explicit
environment of oracle functions threaded through the definitions; the
module-level globals (`public_kc`, `confidential_kc`, `api_clients_kc`)
become an explicit world record threaded in and out of each authenticate
call, so that frame properties about them are statable.
-/

namespace CernSso

/-- A Django header value: a string, or some non-string object (which has
no `split` method — the case the source's `except AttributeError` guards). -/
inductive HVal where
  | str (s : String)
  | nonStr
deriving DecidableEq, Repr

/-- `request.headers`, as an association list keyed by header name. -/
abbrev Headers := List (String × HVal)

/-- `headers.get(key)` / `headers[key]`: the first value stored under the key. -/
def headerGet (hs : Headers) (key : String) : Option HVal :=
  match hs with
  | [] => none
  | (k, v) :: rest => if k = key then some v else headerGet rest key

/-- Modelled from the spec: the configuration surface consumed by the core
(`settings.py` Keycloak section): provider URL, realm, public client id,
confidential client id and secret, and the machine-secret → client-id map
seeding the registry. -/
structure Settings where
  KEYCLOAK_SERVER_URL : String
  KEYCLOAK_REALM : String
  KEYCLOAK_PUBLIC_CLIENT_ID : String
  KEYCLOAK_CONFIDENTIAL_CLIENT_ID : String
  KEYCLOAK_CONFIDENTIAL_SECRET_KEY : String
  KEYCLOAK_API_CLIENTS : List (String × String)
deriving DecidableEq, Repr

/-- Modelled from the spec: `CERNKeycloakOIDC` from the absent `backends.py`
— one identity-provider client registration: provider base URL, realm,
client id, optional client secret.  Owns no mutable state. -/
structure CERNKeycloakOIDC where
  server_url : String
  client_id : String
  client_secret_key : Option String := none
  realm_name : String
deriving DecidableEq, Repr

/-- The decoded claim mapping of a token: the claims the authentication
core inspects (`aud` may be multi-valued in a JWT, `azp` is single). -/
structure TokenClaims where
  sub : String
  aud : List String
  azp : String
deriving DecidableEq, Repr

/-- Modelled from the spec: `AuthenticationFailed` from the absent
`exceptions.py` — a classified failure rendered as `{code, detail}`; the
code is the machine-readable reason and defaults to none when the raise
site passes a single positional argument. -/
structure AuthenticationFailed where
  detail : String
  code : Option String := none
deriving DecidableEq, Repr

/-- A Python exception escaping an authenticate call: either a classified
`AuthenticationFailed`, or a `ValueError` (from `get_kc_by_expected_token`). -/
inductive PyErr where
  | authFail (e : AuthenticationFailed)
  | valueError (msg : String)
deriving DecidableEq, Repr

/-- Modelled from the spec: the outcomes of `OIDCClient.verify` —
signature, expiry and not-before checks against the provider's keys. -/
inductive VerifyError where
  | signatureInvalid
  | tokenExpired
  | tokenNotYetValid
deriving DecidableEq, Repr

/-- The network/crypto environment of one authentication pass: what the
identity provider answers.  `issue` is the client-credentials exchange a
client performs for itself (`issue_api_token`); `verify` is signature and
clock verification of a presented bearer token by a client; `decode` is
unverified decoding of a compact token into its claims. -/
structure Env where
  issue : CERNKeycloakOIDC → String
  verify : CERNKeycloakOIDC → String → Except VerifyError TokenClaims
  decode : String → TokenClaims

/-- Modelled from the spec: the token validation state machine —
`unvalidated → validated` (success), `unvalidated → rejected` (failure),
`unvalidated → preTrusted` (policy-trusted, for self-minted tokens; the
source realises this state by patching `is_authenticated`/`claims` on a
freshly built token). -/
inductive TokenState where
  | unvalidated
  | validated
  | preTrusted
  | rejected (reason : String)
deriving DecidableEq, Repr

/-- Modelled from the spec: `CERNKeycloakToken` from the absent `token.py`
— raw token string, owning client, unverified claims, verified claims
(populated on validation), the code's `is_authenticated` flag, the
spec-level validation state, and an instrumentation bit recording whether
`validate` was ever invoked on this token. -/
structure CERNKeycloakToken where
  access_token : String
  kc : CERNKeycloakOIDC
  unv_claims : TokenClaims
  claims : Option TokenClaims
  is_authenticated : Bool
  state : TokenState
  validateCalled : Bool
deriving DecidableEq, Repr

/-- `CERNKeycloakToken(access_token, kc)`: a fresh, unvalidated token whose
unverified claims are decoded from the raw string. -/
def mkToken (env : Env) (access_token : String) (kc : CERNKeycloakOIDC) :
    CERNKeycloakToken :=
  { access_token := access_token
    kc := kc
    unv_claims := env.decode access_token
    claims := none
    is_authenticated := false
    state := .unvalidated
    validateCalled := false }

/-- Modelled from the spec: `CERNKeycloakUser` from the absent `user.py` —
the principal, a derived read-only view over the token that authenticated it. -/
structure CERNKeycloakUser where
  token : CERNKeycloakToken
deriving DecidableEq, Repr

/-- Modelled from the spec: `CERNKeycloakToken.validate(aud, azp)` from the
absent `token.py` — on an unvalidated token, verify signature and clocks
through the owning client, then require the decoded `aud` to intersect the
expected audiences and the decoded `azp` to be an expected authorized
party; on success transition to validated and populate `claims`, on any
failure transition to rejected and raise the classified failure.  A second
call fails fast. -/
def CERNKeycloakToken.validate (t : CERNKeycloakToken) (env : Env)
    (valid_aud valid_azp : List String) :
    Except AuthenticationFailed CERNKeycloakToken :=
  if t.state ≠ TokenState.unvalidated then
    .error { detail := "Token validates at most once.", code := some "programming_error" }
  else
    match env.verify t.kc t.access_token with
    | .error .signatureInvalid =>
        .error { detail := "Invalid token signature.", code := some "bad_signature" }
    | .error .tokenExpired =>
        .error { detail := "Token is expired.", code := some "token_expired" }
    | .error .tokenNotYetValid =>
        .error { detail := "Token not yet valid.", code := some "token_not_yet_valid" }
    | .ok decoded =>
        if ¬ decoded.aud.any (fun a => valid_aud.contains a) then
          .error { detail := "Invalid audience.", code := some "invalid_audience" }
        else if ¬ valid_azp.contains decoded.azp then
          .error { detail := "Invalid authorized party.", code := some "invalid_azp" }
        else
          .ok { t with state := .validated
                       is_authenticated := true
                       claims := some decoded
                       validateCalled := true }

/-- The module-level globals of `authentication.py`: the public and
confidential clients and the machine-secret registry, the only
process-wide shared objects an authenticate call can reach. -/
structure AuthWorld where
  public_kc : CERNKeycloakOIDC
  confidential_kc : CERNKeycloakOIDC
  api_clients_kc : List (String × CERNKeycloakOIDC)
deriving DecidableEq, Repr

/-- Module import time (`authentication.py` lines 17–38): build `public_kc`,
`confidential_kc` and the `api_clients_kc` registry comprehension from
settings. -/
def initWorld (stg : Settings) : AuthWorld :=
  { public_kc :=
      { server_url := stg.KEYCLOAK_SERVER_URL
        client_id := stg.KEYCLOAK_PUBLIC_CLIENT_ID
        realm_name := stg.KEYCLOAK_REALM }
    confidential_kc :=
      { server_url := stg.KEYCLOAK_SERVER_URL
        client_id := stg.KEYCLOAK_CONFIDENTIAL_CLIENT_ID
        client_secret_key := some stg.KEYCLOAK_CONFIDENTIAL_SECRET_KEY
        realm_name := stg.KEYCLOAK_REALM }
    api_clients_kc := stg.KEYCLOAK_API_CLIENTS.map (fun p =>
      (p.1, { server_url := stg.KEYCLOAK_SERVER_URL
              client_id := p.2
              client_secret_key := some p.1
              realm_name := stg.KEYCLOAK_REALM })) }

/-- `secret_key in api_clients_kc` / `api_clients_kc[secret_key]`:
dictionary lookup in the registry.  A non-string header value is never a
key of the string-keyed registry. -/
def registryGet (reg : List (String × CERNKeycloakOIDC)) (v : HVal) :
    Option CERNKeycloakOIDC :=
  match v with
  | .nonStr => none
  | .str s =>
    match reg with
    | [] => none
    | (k, kc) :: rest => if k = s then some kc else registryGet rest (.str s)

/-- If `sep.isPrefixOf s`, then `s` is `sep` followed by a tail. -/
theorem isPrefixOf_exists {sep s : List Char} (h : sep.isPrefixOf s = true) :
    ∃ t, s = sep ++ t := by
  induction sep generalizing s with
  | nil => exact ⟨s, rfl⟩
  | cons a as ih =>
    cases s with
    | nil => simp [List.isPrefixOf] at h
    | cons b bs =>
      simp only [List.isPrefixOf, Bool.and_eq_true, beq_iff_eq] at h
      obtain ⟨t, ht⟩ := ih h.2
      exact ⟨t, by rw [h.1, ht]; rfl⟩

/-- Worker for `pySplit`, structurally recursive on a fuel bound so that
concrete splits evaluate by kernel reduction; any fuel at least the input
length gives the same answer. -/
def pySplitGo (sep : List Char) : Nat → List Char → List (List Char)
  | 0, s => [s]
  | fuel + 1, s =>
    if sep ≠ [] ∧ sep.isPrefixOf s then
      [] :: pySplitGo sep fuel (s.drop sep.length)
    else
      match s with
      | [] => [[]]
      | c :: rest =>
        match pySplitGo sep fuel rest with
        | [] => [[c]]
        | piece :: pieces => (c :: piece) :: pieces

/-- Python's `s.split(sep)` for a nonempty separator: scan left to right,
cutting at each non-overlapping occurrence of `sep`; the result is never
empty and its pieces never contain the separator. -/
def pySplit (sep : List Char) (s : List Char) : List (List Char) :=
  pySplitGo sep s.length s

/-- Any sufficient fuel computes the same split. -/
theorem pySplitGo_fuel (sep : List Char) :
    ∀ n m (s : List Char), s.length ≤ n → s.length ≤ m →
      pySplitGo sep n s = pySplitGo sep m s := by
  intro n
  induction n with
  | zero =>
    intro m s hn _
    have hnil : s = [] := List.length_eq_zero.mp (Nat.le_zero.mp hn)
    subst hnil
    cases m with
    | zero => rfl
    | succ m =>
      show [([] : List Char)] = pySplitGo sep (m + 1) []
      simp only [pySplitGo]
      have : (sep ≠ [] ∧ sep.isPrefixOf [] = true) = False := by
        simp only [eq_iff_iff, iff_false]
        rintro ⟨h1, h2⟩
        cases sep with
        | nil => exact h1 rfl
        | cons x xs => exact Bool.noConfusion h2
      simp [this]
  | succ n ih =>
    intro m s hn hm
    cases m with
    | zero =>
      have hnil : s = [] := List.length_eq_zero.mp (Nat.le_zero.mp hm)
      subst hnil
      show pySplitGo sep (n + 1) [] = [([] : List Char)]
      simp only [pySplitGo]
      have : (sep ≠ [] ∧ sep.isPrefixOf [] = true) = False := by
        simp only [eq_iff_iff, iff_false]
        rintro ⟨h1, h2⟩
        cases sep with
        | nil => exact h1 rfl
        | cons x xs => exact Bool.noConfusion h2
      simp [this]
    | succ m =>
      simp only [pySplitGo]
      by_cases hc : sep ≠ [] ∧ sep.isPrefixOf s = true
      · rw [if_pos hc, if_pos hc]
        have hpos : 0 < sep.length := List.length_pos.mpr hc.1
        have hlt : (s.drop sep.length).length ≤ n := by
          obtain ⟨t, rfl⟩ := isPrefixOf_exists hc.2
          simp at hn ⊢
          omega
        have hlt' : (s.drop sep.length).length ≤ m := by
          obtain ⟨t, rfl⟩ := isPrefixOf_exists hc.2
          simp at hm ⊢
          omega
        rw [ih m _ hlt hlt']
      · rw [if_neg hc, if_neg hc]
        cases s with
        | nil => rfl
        | cons c rest =>
          have h1 : rest.length ≤ n := by simp at hn; omega
          have h2 : rest.length ≤ m := by simp at hm; omega
          exact congrArg
            (fun ps : List (List Char) =>
              match ps with
              | [] => [[c]]
              | piece :: pieces => (c :: piece) :: pieces)
            (ih m rest h1 h2)

/-- The one-step unfolding of `pySplit`. -/
theorem pySplit_eq (sep s : List Char) :
    pySplit sep s =
      if sep ≠ [] ∧ sep.isPrefixOf s then
        [] :: pySplit sep (s.drop sep.length)
      else
        match s with
        | [] => [[]]
        | c :: rest =>
          match pySplit sep rest with
          | [] => [[c]]
          | piece :: pieces => (c :: piece) :: pieces := by
  unfold pySplit
  cases hs : s with
  | nil =>
    show [([] : List Char)] = _
    have : (sep ≠ [] ∧ sep.isPrefixOf [] = true) = False := by
      simp only [eq_iff_iff, iff_false]
      rintro ⟨h1, h2⟩
      cases sep with
      | nil => exact h1 rfl
      | cons x xs => exact Bool.noConfusion h2
    simp [this]
  | cons c rest =>
    show pySplitGo sep (rest.length + 1) (c :: rest) = _
    rw [pySplitGo]
    by_cases hc : sep ≠ [] ∧ sep.isPrefixOf (c :: rest) = true
    · rw [if_pos hc, if_pos hc]
      have hpos : 0 < sep.length := List.length_pos.mpr hc.1
      have hle : ((c :: rest).drop sep.length).length ≤ rest.length := by
        simp
        omega
      rw [pySplitGo_fuel sep rest.length _ _ hle le_rfl]
    · rw [if_neg hc, if_neg hc]

/-- Python's `lst[-1]`, on the never-empty result of a split. -/
def lastChunk (sep s : List Char) : List Char := (pySplit sep s).getLastD []

/-- The separator the source splits the `Authorization` value on. -/
def bearerSep : List Char := "Bearer ".toList

/-- `CERNKeycloakBearerAuthentication.get_access_token`: the
`Authorization` header must be present (else `authorization_not_found`);
its value must be a string, i.e. have a `split` method (else the
`AttributeError` handler raises `bad_access_token`); a string value is
split on `"Bearer "` and the last piece returned. -/
def get_access_token (hs : Headers) : Except AuthenticationFailed String :=
  match headerGet hs "Authorization" with
  | none =>
      .error { detail := "Authorization header not found."
               code := some "authorization_not_found" }
  | some .nonStr =>
      .error { detail := "Malformed access token."
               code := some "bad_access_token" }
  | some (.str bearer) => .ok ⟨lastChunk bearerSep bearer.toList⟩

/-- `CERNKeycloakClientSecretAuthentication.get_secret_key`:
`headers.get("X-CLIENT-SECRET")`. -/
def get_secret_key (hs : Headers) : Option HVal :=
  headerGet hs "X-CLIENT-SECRET"

/-- `CERNKeycloakBearerAuthentication.get_kc_by_expected_token`: choose the
client and the expected `aud`/`azp` lists from the variant tag; any other
tag is a `ValueError`. -/
def get_kc_by_expected_token (stg : Settings) (w : AuthWorld) (ebtt : String) :
    Except PyErr (CERNKeycloakOIDC × List String × List String) :=
  if ebtt = "public" then
    .ok (w.public_kc,
         [stg.KEYCLOAK_PUBLIC_CLIENT_ID],
         [stg.KEYCLOAK_PUBLIC_CLIENT_ID])
  else if ebtt = "confidential" then
    .ok (w.confidential_kc,
         [stg.KEYCLOAK_CONFIDENTIAL_CLIENT_ID],
         [stg.KEYCLOAK_CONFIDENTIAL_CLIENT_ID, stg.KEYCLOAK_PUBLIC_CLIENT_ID])
  else
    .error (.valueError "expected_bearer_token_type should only be public or confidential.")

/-- `CERNKeycloakClientSecretAuthentication.authenticate`: no
`X-CLIENT-SECRET` header → `None`; unregistered secret → raise (note the
source passes ONE argument, two adjacent string literals concatenated, so
no classified code is attached); registered secret → mint a token through
the client's own credentials and hand it out pre-trusted, patching
`is_authenticated` and copying the unverified claims, with no `validate`
call.  The second component is the module-global world after the call. -/
def CERNKeycloakClientSecretAuthentication.authenticate (env : Env)
    (hs : Headers) (w : AuthWorld) :
    Except PyErr (Option (CERNKeycloakUser × CERNKeycloakToken)) × AuthWorld :=
  (match get_secret_key hs with
   | none => .ok none
   | some secret_key =>
     match registryGet w.api_clients_kc secret_key with
     | none =>
         .error (.authFail
           { detail := "App secret is not authorized." ++ "app_secret_not_authorized" })
     | some kc =>
         let issued_token := env.issue kc
         let token := mkToken env issued_token kc
         let token := { token with is_authenticated := true
                                   state := TokenState.preTrusted
                                   claims := some token.unv_claims }
         .ok (some ({ token := token }, token)),
   w)

/-- `CERNKeycloakBearerAuthentication.authenticate`: extract the access
token from the `Authorization` header, pick the client and expected claim
lists for the configured variant, build an unvalidated token and validate
it; any raise propagates.  The second component is the module-global world
after the call. -/
def CERNKeycloakBearerAuthentication.authenticate (env : Env) (stg : Settings)
    (expected_bearer_token_type : String) (hs : Headers) (w : AuthWorld) :
    Except PyErr (Option (CERNKeycloakUser × CERNKeycloakToken)) × AuthWorld :=
  (match get_access_token hs with
   | .error e => .error (.authFail e)
   | .ok access_token =>
     match get_kc_by_expected_token stg w expected_bearer_token_type with
     | .error e => .error e
     | .ok (kc, valid_aud, valid_azp) =>
       let token := mkToken env access_token kc
       match token.validate env valid_aud valid_azp with
       | .error e => .error (.authFail e)
       | .ok token => .ok (some ({ token := token }, token)),
   w)

/-- `CERNKeycloakPublicAuthentication.__init__` sets the variant tag. -/
def CERNKeycloakPublicAuthentication.expected_bearer_token_type : String :=
  "public"

/-- `CERNKeycloakConfidentialAuthentication.__init__` sets the variant tag. -/
def CERNKeycloakConfidentialAuthentication.expected_bearer_token_type : String :=
  "confidential"

/-- `CERNKeycloakPublicAuthentication.authenticate`: inherited bearer
authenticate at the tag its constructor set. -/
def CERNKeycloakPublicAuthentication.authenticate (env : Env) (stg : Settings)
    (hs : Headers) (w : AuthWorld) :
    Except PyErr (Option (CERNKeycloakUser × CERNKeycloakToken)) × AuthWorld :=
  CERNKeycloakBearerAuthentication.authenticate env stg
    CERNKeycloakPublicAuthentication.expected_bearer_token_type hs w

/-- `CERNKeycloakConfidentialAuthentication.authenticate`: inherited bearer
authenticate at the tag its constructor set. -/
def CERNKeycloakConfidentialAuthentication.authenticate (env : Env)
    (stg : Settings) (hs : Headers) (w : AuthWorld) :
    Except PyErr (Option (CERNKeycloakUser × CERNKeycloakToken)) × AuthWorld :=
  CERNKeycloakBearerAuthentication.authenticate env stg
    CERNKeycloakConfidentialAuthentication.expected_bearer_token_type hs w

/-- One authentication pass: which authenticator ran, with which request
headers, against which provider behaviour. -/
inductive AuthStep where
  | secret (env : Env) (hs : Headers)
  | bearer (env : Env) (stg : Settings) (ebtt : String) (hs : Headers)

/-- The module-global world after one authentication pass. -/
def runStep (st : AuthStep) (w : AuthWorld) : AuthWorld :=
  match st with
  | .secret env hs =>
      (CERNKeycloakClientSecretAuthentication.authenticate env hs w).2
  | .bearer env stg ebtt hs =>
      (CERNKeycloakBearerAuthentication.authenticate env stg ebtt hs w).2

/-- The module-global world after a sequence of authentication passes. -/
def runChain (steps : List AuthStep) (w : AuthWorld) : AuthWorld :=
  steps.foldl (fun w st => runStep st w) w

/-- `isPrefixOf` agrees with the existence of a tail. -/
theorem isPrefixOf_iff (sep s : List Char) :
    sep.isPrefixOf s = true ↔ ∃ t, s = sep ++ t := by
  constructor
  · exact isPrefixOf_exists
  · rintro ⟨t, rfl⟩
    induction sep with
    | nil => simp
    | cons x xs ih => simp [List.isPrefixOf, ih]

/-- `sep` occurs somewhere inside `s`. -/
def occursIn (sep s : List Char) : Prop := ∃ a b, s = a ++ sep ++ b

instance occursIn_decidable (sep s : List Char) : Decidable (occursIn sep s) :=
  decidable_of_iff (List.any (List.range (s.length + 1))
      (fun i => sep.isPrefixOf (s.drop i)) = true) (by
    constructor
    · intro h
      obtain ⟨i, _, hi⟩ := List.any_eq_true.mp h
      obtain ⟨t, ht⟩ := isPrefixOf_exists hi
      refine ⟨s.take i, t, ?_⟩
      conv_lhs => rw [← List.take_append_drop i s]
      rw [ht, List.append_assoc]
    · rintro ⟨a, b, rfl⟩
      refine List.any_eq_true.mpr ⟨a.length, ?_, ?_⟩
      · refine List.mem_range.mpr ?_
        simp
        omega
      · rw [List.append_assoc, List.drop_left]
        exact (isPrefixOf_iff sep (sep ++ b)).mpr ⟨b, rfl⟩)

/-- Nothing occurs in `[]` but the empty pattern. -/
theorem occursIn_nil {sep : List Char} (hsep : sep ≠ []) : ¬ occursIn sep [] := by
  rintro ⟨a, b, h⟩
  have := congrArg List.length h
  simp at this
  exact hsep (List.length_eq_zero.mp (by omega))

/-- An occurrence in `c :: s` starts at the head or lies in the tail. -/
theorem occursIn_cons {sep : List Char} {c : Char} {s : List Char} :
    occursIn sep (c :: s) ↔ (∃ t, c :: s = sep ++ t) ∨ occursIn sep s := by
  constructor
  · rintro ⟨a, b, hab⟩
    cases a with
    | nil => exact Or.inl ⟨b, by simpa using hab⟩
    | cons d a' =>
      right
      rw [List.cons_append, List.cons_append, List.cons.injEq] at hab
      exact ⟨a', b, hab.2⟩
  · rintro (⟨t, ht⟩ | ⟨a, b, rfl⟩)
    · exact ⟨[], t, by simpa using ht⟩
    · exact ⟨c :: a, b, by simp⟩

/-- A split is never the empty list of pieces. -/
theorem pySplit_ne_nil (sep s : List Char) : pySplit sep s ≠ [] := by
  rw [pySplit_eq]
  split
  · simp
  · split
    · simp
    · split <;> simp

/-- `getLastD` ignores its default on a nonempty list. -/
theorem getLastD_of_ne_nil {α : Type} {l : List α} (h : l ≠ []) (d d' : α) :
    l.getLastD d = l.getLastD d' := by
  rw [List.getLastD_eq_getLast?, List.getLastD_eq_getLast?,
      List.getLast?_eq_getLast l h]
  rfl

/-- The split decomposition: either the separator does not occur and the
single piece is the whole string, or the string is some text, then the
separator, then the last piece, which is separator-free. -/
theorem pySplit_spec (sep : List Char) (hsep : sep ≠ []) (s : List Char) :
    (pySplit sep s = [s] ∧ ¬ occursIn sep s) ∨
    (∃ a, s = a ++ sep ++ lastChunk sep s ∧ ¬ occursIn sep (lastChunk sep s)
        ∧ 2 ≤ (pySplit sep s).length) := by
  suffices H : ∀ n (s : List Char), s.length ≤ n →
      (pySplit sep s = [s] ∧ ¬ occursIn sep s) ∨
      (∃ a, s = a ++ sep ++ lastChunk sep s ∧ ¬ occursIn sep (lastChunk sep s)
          ∧ 2 ≤ (pySplit sep s).length) from H s.length s le_rfl
  intro n
  induction n with
  | zero =>
    intro s hs
    have hnil : s = [] := List.length_eq_zero.mp (Nat.le_zero.mp hs)
    subst hnil
    have e : pySplit sep [] = [[]] := by
      rw [pySplit_eq]
      have : sep.isPrefixOf [] = false := by
        cases sep with
        | nil => exact absurd rfl hsep
        | cons x xs => rfl
      simp [this]
    exact Or.inl ⟨e, occursIn_nil hsep⟩
  | succ n ih =>
    intro s hs
    by_cases hpre : sep.isPrefixOf s = true
    · -- the separator heads the string: an empty first piece, then recurse
      obtain ⟨t, rfl⟩ := isPrefixOf_exists hpre
      have e : pySplit sep (sep ++ t) = [] :: pySplit sep t := by
        rw [pySplit_eq]
        rw [if_pos (⟨hsep, hpre⟩ : sep ≠ [] ∧ sep.isPrefixOf (sep ++ t) = true)]
        rw [List.drop_left]
      have hlen : t.length ≤ n := by
        have h1 : 0 < sep.length := List.length_pos.mpr hsep
        have h2 : (sep ++ t).length = sep.length + t.length := by simp
        omega
      have hlc : lastChunk sep (sep ++ t) = lastChunk sep t := by
        unfold lastChunk
        rw [e]
        obtain ⟨q, qs, hq⟩ := List.exists_cons_of_ne_nil (pySplit_ne_nil sep t)
        rw [hq]
        simp [List.getLastD_cons]
      rcases ih t hlen with ⟨e', hfree⟩ | ⟨a', hdec, hfree, h2⟩
      · -- the tail is a single separator-free piece
        right
        refine ⟨[], ?_, ?_, ?_⟩
        · rw [hlc]
          unfold lastChunk
          rw [e', List.getLastD_cons]
          simp
        · rw [hlc]
          unfold lastChunk
          rw [e', List.getLastD_cons]
          simpa using hfree
        · rw [e, e']
          simp
      · -- the tail itself decomposes at its own last separator
        right
        refine ⟨sep ++ a', ?_, ?_, ?_⟩
        · rw [hlc]
          conv_lhs => rw [hdec]
          simp
        · rw [hlc]; exact hfree
        · rw [e]
          simp
          omega
    · cases s with
      | nil =>
        have e : pySplit sep [] = [[]] := by
          rw [pySplit_eq]
          simp [hpre]
        exact Or.inl ⟨e, occursIn_nil hsep⟩
      | cons c rest =>
        obtain ⟨q, qs, hq⟩ := List.exists_cons_of_ne_nil (pySplit_ne_nil sep rest)
        have e : pySplit sep (c :: rest) = (c :: q) :: qs := by
          rw [pySplit_eq]
          rw [if_neg (by simp [hpre] : ¬ (sep ≠ [] ∧ sep.isPrefixOf (c :: rest) = true))]
          simp only [hq]
        have hlen : rest.length ≤ n := by
          simp at hs
          omega
        rcases ih rest hlen with ⟨e', hfree⟩ | ⟨a', hdec, hfree, h2⟩
        · -- the tail is one separator-free piece; so is the whole
          left
          have hq1 : q = rest ∧ qs = [] := by
            rw [e'] at hq
            exact ⟨(List.cons.injEq _ _ _ _ ▸ hq).1.symm,
                   (List.cons.injEq _ _ _ _ ▸ hq).2.symm⟩
          refine ⟨by rw [e, hq1.1, hq1.2], ?_⟩
          intro hocc
          rcases occursIn_cons.mp hocc with ⟨t, ht⟩ | h
          · exact hpre ((isPrefixOf_iff sep (c :: rest)).mpr ⟨t, ht⟩)
          · exact hfree h
        · -- the tail decomposes; prepending `c` extends the leading text
          right
          have hqs : qs ≠ [] := by
            intro h
            rw [hq, h] at h2
            simp at h2
          have hlc : lastChunk sep (c :: rest) = lastChunk sep rest := by
            unfold lastChunk
            rw [e, hq]
            cases qs with
            | nil => exact absurd rfl hqs
            | cons z zs => simp [List.getLastD_cons]
          refine ⟨c :: a', ?_, ?_, ?_⟩
          · rw [hlc]
            conv_lhs => rw [hdec]
            simp
          · rw [hlc]; exact hfree
          · rw [e]
            rw [hq] at h2
            simp at h2 ⊢
            omega

/-- No nonempty proper prefix of `sep` is also a suffix: occurrences of
`sep` can never overlap each other. -/
def borderless (sep : List Char) : Prop :=
  ∀ k, k < sep.length → 0 < k → sep.take k ≠ sep.drop (sep.length - k)

/-- The separator `"Bearer "` is borderless. -/
theorem bearerSep_borderless : borderless bearerSep := by
  unfold borderless bearerSep
  decide

/-- For a borderless separator, an occurrence followed by separator-free
text is the rightmost occurrence: any other occurrence starts no later. -/
theorem lastOcc_maximal {sep : List Char} (hb : borderless sep)
    {a b a' b' : List Char} (h : a ++ sep ++ b = a' ++ sep ++ b')
    (hfree : ¬ occursIn sep b) : a'.length ≤ a.length := by
  by_contra hgt
  push_neg at hgt
  by_cases hfar : a.length + sep.length ≤ a'.length
  · -- the rival occurrence lies wholly inside `b`
    apply hfree
    have hdrop := congrArg (List.drop (a.length + sep.length)) h
    rw [@List.drop_left' Char (a ++ sep) b (a.length + sep.length) (by simp)] at hdrop
    rw [List.append_assoc, List.drop_append_of_le_length hfar] at hdrop
    exact ⟨a'.drop (a.length + sep.length), b', by rw [hdrop, List.append_assoc]⟩
  · -- the rival occurrence overlaps ours: extract a border of `sep`
    push_neg at hfar
    have hd1 : 0 < a'.length - a.length := by omega
    have hd2 : a'.length - a.length < sep.length := by omega
    have hdrop := congrArg (List.drop a'.length) h
    rw [show (a' ++ sep ++ b').drop a'.length = sep ++ b' from by
          rw [List.append_assoc]
          exact List.drop_left a' (sep ++ b')] at hdrop
    rw [List.append_assoc,
        show a'.length = a.length + (a'.length - a.length) from by omega,
        ← List.drop_drop, List.drop_left,
        List.drop_append_of_le_length (by omega)] at hdrop
    have htake := congrArg (List.take (sep.length - (a'.length - a.length))) hdrop
    rw [List.take_left' (by simp),
        List.take_append_of_le_length (by omega)] at htake
    exact hb (sep.length - (a'.length - a.length)) (by omega) (by omega)
      (by rw [show sep.length - (sep.length - (a'.length - a.length))
                = a'.length - a.length from by omega]
          exact htake.symm)

/-- A concrete configuration: one registered machine client under secret `s2`. -/
def stg0 : Settings :=
  { KEYCLOAK_SERVER_URL := "https://auth.cern.ch/auth/"
    KEYCLOAK_REALM := "cern"
    KEYCLOAK_PUBLIC_CLIENT_ID := "dials-public"
    KEYCLOAK_CONFIDENTIAL_CLIENT_ID := "dials-confidential"
    KEYCLOAK_CONFIDENTIAL_SECRET_KEY := "conf-secret"
    KEYCLOAK_API_CLIENTS := [("s2", "robot-client")] }

/-- The module globals built from `stg0`. -/
def w0 : AuthWorld := initWorld stg0

/-- A decoded claim set matching the public variant's expectations. -/
def claims0 : TokenClaims :=
  { sub := "user-1", aud := ["dials-public"], azp := "dials-public" }

/-- A provider that verifies every token to `claims0` and mints
deterministic tokens. -/
def env0 : Env :=
  { issue := fun kc => "minted-for-" ++ kc.client_id
    verify := fun _ _ => .ok claims0
    decode := fun _ => claims0 }

/-- The registered machine client seeded from `stg0` under secret `s2`. -/
def kc0 : CERNKeycloakOIDC :=
  { server_url := "https://auth.cern.ch/auth/"
    client_id := "robot-client"
    client_secret_key := some "s2"
    realm_name := "cern" }

/-- Whether an authenticate outcome is the "no opinion" answer `None`
(as opposed to a raise or a successful principal). -/
def returnsNone {α : Type} : Except PyErr (Option α) → Bool
  | .ok none => true
  | _ => false

/-- A successful `validate` yields a validated token with populated claims,
on which `validate` did run. -/
theorem validate_ok {t : CERNKeycloakToken} {env : Env} {va vz : List String}
    {t' : CERNKeycloakToken} (h : t.validate env va vz = .ok t') :
    t'.state = TokenState.validated ∧ t'.claims.isSome = true
      ∧ t'.validateCalled = true := by
  unfold CERNKeycloakToken.validate at h
  split at h
  · simp at h
  · split at h
    · simp at h
    · simp at h
    · simp at h
    · split at h
      · simp at h
      · split at h
        · simp at h
        · simp only [Except.ok.injEq] at h
          subst h
          simp

/-- C3: on a present but unregistered `X-CLIENT-SECRET`, the source raises
`AuthenticationFailed` with a single argument — the two adjacent string
literals concatenate into one detail string, so no classified code is
attached.  (The parallel raises in `get_access_token` pass the code as a
second argument; the missing comma here is the slip.) -/
theorem c3_unregistered_secret_raises_unclassified :
    (CERNKeycloakClientSecretAuthentication.authenticate env0
        [("X-CLIENT-SECRET", HVal.str "s1")] w0).1
      = .error (.authFail
          { detail := "App secret is not authorized.app_secret_not_authorized"
            code := none })
    ∧ returnsNone (CERNKeycloakClientSecretAuthentication.authenticate env0
        [("X-CLIENT-SECRET", HVal.str "s1")] w0).1 = false :=
  ⟨rfl, rfl⟩

/-- C5: the expected claim sets are exactly variant-specific — the public
variant checks audience and authorized party against the public client id
only; the confidential variant checks audience against the confidential
client id and accepts either client id as authorized party. -/
theorem c5_expected_claim_sets (stg : Settings) (w : AuthWorld) :
    get_kc_by_expected_token stg w
        CERNKeycloakPublicAuthentication.expected_bearer_token_type
      = .ok (w.public_kc,
             [stg.KEYCLOAK_PUBLIC_CLIENT_ID],
             [stg.KEYCLOAK_PUBLIC_CLIENT_ID])
    ∧ get_kc_by_expected_token stg w
        CERNKeycloakConfidentialAuthentication.expected_bearer_token_type
      = .ok (w.confidential_kc,
             [stg.KEYCLOAK_CONFIDENTIAL_CLIENT_ID],
             [stg.KEYCLOAK_CONFIDENTIAL_CLIENT_ID, stg.KEYCLOAK_PUBLIC_CLIENT_ID]) :=
  ⟨rfl, rfl⟩

/-- C8: the registry and the public/confidential clients are never mutated
by authentication: after any number of authentication passes, by any mix of
authenticators against any requests and provider behaviours, the module
globals — the registry's contents and both clients' attributes — are
exactly the initial ones. -/
theorem c8_registry_and_clients_immutable (steps : List AuthStep) (w : AuthWorld) :
    runChain steps w = w
    ∧ (runChain steps w).api_clients_kc = w.api_clients_kc
    ∧ (runChain steps w).public_kc = w.public_kc
    ∧ (runChain steps w).confidential_kc = w.confidential_kc := by
  have hstep : ∀ st w', runStep st w' = w' := by
    intro st w'
    cases st <;> rfl
  have hmain : runChain steps w = w := by
    induction steps with
    | nil => rfl
    | cons st rest ih =>
      show runChain rest (runStep st w) = w
      rw [hstep st w]
      exact ih
  exact ⟨hmain, by rw [hmain], by rw [hmain], by rw [hmain]⟩

/-- C10: `get_kc_by_expected_token` raises `ValueError` on every tag other
than `"public"` and `"confidential"`, and the tags the two exported
authenticator classes set in their constructors never reach that branch. -/
theorem c10_value_error_unreachable_for_exported_classes (stg : Settings)
    (w : AuthWorld) (t : String) (h1 : t ≠ "public") (h2 : t ≠ "confidential") :
    get_kc_by_expected_token stg w t
      = .error (.valueError
          "expected_bearer_token_type should only be public or confidential.")
    ∧ (∃ r, get_kc_by_expected_token stg w
          CERNKeycloakPublicAuthentication.expected_bearer_token_type = .ok r)
    ∧ (∃ r, get_kc_by_expected_token stg w
          CERNKeycloakConfidentialAuthentication.expected_bearer_token_type = .ok r) := by
  refine ⟨?_, ⟨_, rfl⟩, ⟨_, rfl⟩⟩
  unfold get_kc_by_expected_token
  rw [if_neg h1, if_neg h2]

/-- C10, witnessed at the tag `"basic"`. -/
theorem c10_witness :
    get_kc_by_expected_token stg0 w0 "basic"
      = .error (.valueError
          "expected_bearer_token_type should only be public or confidential.")
    ∧ (∃ r, get_kc_by_expected_token stg0 w0
          CERNKeycloakPublicAuthentication.expected_bearer_token_type = .ok r)
    ∧ (∃ r, get_kc_by_expected_token stg0 w0
          CERNKeycloakConfidentialAuthentication.expected_bearer_token_type = .ok r) :=
  c10_value_error_unreachable_for_exported_classes stg0 w0 "basic"
    (by decide) (by decide)

/-- C1 (counterexample): a request with no `Authorization` header does not
make the bearer authenticator return `None` — it raises the classified
`authorization_not_found` failure. -/
theorem c1_counterexample :
    (CERNKeycloakBearerAuthentication.authenticate env0 stg0 "public" [] w0).1
      = .error (.authFail { detail := "Authorization header not found."
                            code := some "authorization_not_found" })
    ∧ returnsNone
        (CERNKeycloakBearerAuthentication.authenticate env0 stg0 "public" [] w0).1
      = false :=
  ⟨rfl, rfl⟩

/-- C1 (amended): only the secret authenticator answers a missing
precondition header with `None`; the bearer authenticator raises
`authorization_not_found` when `Authorization` is absent. -/
theorem c1_absent_header_behaviour (env : Env) (stg : Settings) (ebtt : String)
    (w : AuthWorld) (hs : Headers) :
    (headerGet hs "X-CLIENT-SECRET" = none →
      (CERNKeycloakClientSecretAuthentication.authenticate env hs w).1 = .ok none)
    ∧ (headerGet hs "Authorization" = none →
      (CERNKeycloakBearerAuthentication.authenticate env stg ebtt hs w).1
        = .error (.authFail { detail := "Authorization header not found."
                              code := some "authorization_not_found" })) := by
  constructor
  · intro h
    dsimp only [CERNKeycloakClientSecretAuthentication.authenticate, get_secret_key]
    rw [h]
  · intro h
    dsimp only [CERNKeycloakBearerAuthentication.authenticate, get_access_token]
    rw [h]

/-- C1, witnessed on the empty header dictionary. -/
theorem c1_witness :
    headerGet [] "X-CLIENT-SECRET" = none
    ∧ headerGet [] "Authorization" = none
    ∧ (CERNKeycloakClientSecretAuthentication.authenticate env0 [] w0).1 = .ok none
    ∧ (CERNKeycloakBearerAuthentication.authenticate env0 stg0 "confidential" [] w0).1
        = .error (.authFail { detail := "Authorization header not found."
                              code := some "authorization_not_found" }) :=
  ⟨rfl, rfl,
   (c1_absent_header_behaviour env0 stg0 "confidential" w0 []).1 rfl,
   (c1_absent_header_behaviour env0 stg0 "confidential" w0 []).2 rfl⟩

/-- C2 (counterexample): a present `Authorization` value not of the form
`Bearer <token>` does not raise `bad_access_token` — the string passes
through `split` unchanged and is returned as the access token. -/
theorem c2_counterexample :
    get_access_token [("Authorization", HVal.str "Basic xyz")] = .ok "Basic xyz" :=
  rfl

/-- C2 (amended): `bad_access_token` is raised exactly when the present
`Authorization` value is not a string (the `AttributeError` of calling
`split` on it); every string value, whatever its form, yields the last
piece of the `"Bearer "` split without raising. -/
theorem c2_bad_access_token_only_for_non_strings (hs : Headers) :
    (headerGet hs "Authorization" = some HVal.nonStr →
      get_access_token hs
        = .error { detail := "Malformed access token."
                   code := some "bad_access_token" })
    ∧ (∀ v : String, headerGet hs "Authorization" = some (HVal.str v) →
        get_access_token hs = .ok ⟨lastChunk bearerSep v.toList⟩) := by
  constructor
  · intro h
    unfold get_access_token
    rw [h]
  · intro v h
    unfold get_access_token
    rw [h]

/-- C2, witnessed on a non-string value and on a well-formed bearer value. -/
theorem c2_witness :
    headerGet [("Authorization", HVal.nonStr)] "Authorization" = some HVal.nonStr
    ∧ get_access_token [("Authorization", HVal.nonStr)]
        = .error { detail := "Malformed access token."
                   code := some "bad_access_token" }
    ∧ get_access_token [("Authorization", HVal.str "Bearer tok")] = .ok "tok" :=
  ⟨rfl,
   (c2_bad_access_token_only_for_non_strings [("Authorization", HVal.nonStr)]).1 rfl,
   (c2_bad_access_token_only_for_non_strings
      [("Authorization", HVal.str "Bearer tok")]).2 "Bearer tok" rfl⟩

/-- C4: a registered secret mints a token via the registered client's own
credentials; the token is handed out pre-trusted — `validate` never ran,
its verified claims are just the unverified decode — and the principal is
built over that very token; moreover the outcome is independent of the
verification oracle, so no signature, audience or authorized-party check
can have been consulted. -/
theorem c4_registered_secret_mints_pretrusted (env : Env) (hs : Headers)
    (w : AuthWorld) (s : String) (kc : CERNKeycloakOIDC)
    (hsec : get_secret_key hs = some (HVal.str s))
    (hreg : registryGet w.api_clients_kc (HVal.str s) = some kc) :
    ∃ u t, (CERNKeycloakClientSecretAuthentication.authenticate env hs w).1
        = .ok (some (u, t))
      ∧ t.access_token = env.issue kc
      ∧ t.kc = kc
      ∧ t.state = TokenState.preTrusted
      ∧ t.validateCalled = false
      ∧ t.claims = some t.unv_claims
      ∧ t.unv_claims = env.decode (env.issue kc)
      ∧ u.token = t
      ∧ ∀ env' : Env, env'.issue = env.issue → env'.decode = env.decode →
          (CERNKeycloakClientSecretAuthentication.authenticate env' hs w).1
            = (CERNKeycloakClientSecretAuthentication.authenticate env hs w).1 := by
  have e : (CERNKeycloakClientSecretAuthentication.authenticate env hs w).1
      = .ok (some
          ({ token := { access_token := env.issue kc, kc := kc
                        unv_claims := env.decode (env.issue kc)
                        claims := some (env.decode (env.issue kc))
                        is_authenticated := true, state := TokenState.preTrusted
                        validateCalled := false } },
           { access_token := env.issue kc, kc := kc
             unv_claims := env.decode (env.issue kc)
             claims := some (env.decode (env.issue kc))
             is_authenticated := true, state := TokenState.preTrusted
             validateCalled := false })) := by
    simp only [CERNKeycloakClientSecretAuthentication.authenticate, hsec, hreg, mkToken]
  refine ⟨_, _, e, rfl, rfl, rfl, rfl, rfl, rfl, rfl, ?_⟩
  intro env' h1 h2
  simp only [CERNKeycloakClientSecretAuthentication.authenticate, hsec, hreg,
    mkToken, h1, h2]

/-- C4, witnessed at the registered secret `s2` of the concrete world. -/
theorem c4_witness :
    get_secret_key [("X-CLIENT-SECRET", HVal.str "s2")] = some (HVal.str "s2")
    ∧ registryGet w0.api_clients_kc (HVal.str "s2") = some kc0
    ∧ ∃ u t, (CERNKeycloakClientSecretAuthentication.authenticate env0
          [("X-CLIENT-SECRET", HVal.str "s2")] w0).1 = .ok (some (u, t))
        ∧ t.access_token = env0.issue kc0
        ∧ t.kc = kc0
        ∧ t.state = TokenState.preTrusted
        ∧ t.validateCalled = false
        ∧ t.claims = some t.unv_claims
        ∧ t.unv_claims = env0.decode (env0.issue kc0)
        ∧ u.token = t
        ∧ ∀ env' : Env, env'.issue = env0.issue → env'.decode = env0.decode →
            (CERNKeycloakClientSecretAuthentication.authenticate env'
                [("X-CLIENT-SECRET", HVal.str "s2")] w0).1
              = (CERNKeycloakClientSecretAuthentication.authenticate env0
                  [("X-CLIENT-SECRET", HVal.str "s2")] w0).1 :=
  ⟨rfl, rfl,
   c4_registered_secret_mints_pretrusted env0 [("X-CLIENT-SECRET", HVal.str "s2")]
     w0 "s2" kc0 rfl rfl⟩

/-- C6: whichever authenticator returns a principal, the token behind it is
validated (the bearer path, which must have passed `validate`) or
explicitly pre-trusted (the secret path); no rejected or still-unvalidated
token ever backs a principal, and the principal wraps that very token. -/
theorem c6_principal_only_validated_or_pretrusted (env : Env) (stg : Settings)
    (ebtt : String) (hs : Headers) (w : AuthWorld)
    (u : CERNKeycloakUser) (t : CERNKeycloakToken) :
    ((CERNKeycloakClientSecretAuthentication.authenticate env hs w).1
        = .ok (some (u, t)) →
      (t.state = TokenState.validated ∨ t.state = TokenState.preTrusted)
      ∧ u.token = t)
    ∧ ((CERNKeycloakBearerAuthentication.authenticate env stg ebtt hs w).1
        = .ok (some (u, t)) →
      (t.state = TokenState.validated ∨ t.state = TokenState.preTrusted)
      ∧ u.token = t) := by
  constructor
  · intro h
    dsimp only [CERNKeycloakClientSecretAuthentication.authenticate] at h
    split at h
    · simp at h
    · split at h
      · simp at h
      · simp only [Except.ok.injEq, Option.some.injEq, Prod.mk.injEq] at h
        obtain ⟨hu, ht⟩ := h
        subst ht
        exact ⟨Or.inr rfl, by rw [← hu]⟩
  · intro h
    dsimp only [CERNKeycloakBearerAuthentication.authenticate] at h
    split at h
    · simp at h
    · split at h
      · simp at h
      · split at h
        · simp at h
        · rename_i token heq
          simp only [Except.ok.injEq, Option.some.injEq, Prod.mk.injEq] at h
          obtain ⟨hu, ht⟩ := h
          subst ht
          exact ⟨Or.inl (validate_ok heq).1, by rw [← hu]⟩

/-- C6, witnessed on both paths: the secret path at the registered secret,
and the public bearer path with a provider accepting the presented token. -/
theorem c6_witness :
    ((CERNKeycloakClientSecretAuthentication.authenticate env0
        [("X-CLIENT-SECRET", HVal.str "s2")] w0).1
      = .ok (some
          ({ token := { access_token := "minted-for-robot-client", kc := kc0
                        unv_claims := claims0, claims := some claims0
                        is_authenticated := true, state := TokenState.preTrusted
                        validateCalled := false } },
           { access_token := "minted-for-robot-client", kc := kc0
             unv_claims := claims0, claims := some claims0
             is_authenticated := true, state := TokenState.preTrusted
             validateCalled := false })))
    ∧ (({ access_token := "minted-for-robot-client", kc := kc0
          unv_claims := claims0, claims := some claims0
          is_authenticated := true, state := TokenState.preTrusted
          validateCalled := false } : CERNKeycloakToken).state = TokenState.validated
      ∨ ({ access_token := "minted-for-robot-client", kc := kc0
           unv_claims := claims0, claims := some claims0
           is_authenticated := true, state := TokenState.preTrusted
           validateCalled := false } : CERNKeycloakToken).state
          = TokenState.preTrusted) :=
  ⟨rfl,
   ((c6_principal_only_validated_or_pretrusted env0 stg0 "public"
      [("X-CLIENT-SECRET", HVal.str "s2")] w0 _ _).1 rfl).1⟩

/-- C7 (counterexample): the secret path hands out a token whose verified
claims are populated although its state is PreTrusted, not Validated — the
"populated iff Validated" biconditional fails on it. -/
theorem c7_counterexample :
    ∃ u t, (CERNKeycloakClientSecretAuthentication.authenticate env0
        [("X-CLIENT-SECRET", HVal.str "s2")] w0).1 = .ok (some (u, t))
      ∧ t.claims.isSome = true
      ∧ t.state = TokenState.preTrusted
      ∧ decide (t.state = TokenState.validated) = false :=
  ⟨_, _, rfl, rfl, rfl, rfl⟩

/-- C7 (amended): on every token an authenticator hands out, the verified
claims are populated exactly when the token's state is Validated or
PreTrusted. -/
theorem c7_claims_iff_validated_or_pretrusted (env : Env) (stg : Settings)
    (ebtt : String) (hs : Headers) (w : AuthWorld)
    (u : CERNKeycloakUser) (t : CERNKeycloakToken) :
    ((CERNKeycloakClientSecretAuthentication.authenticate env hs w).1
        = .ok (some (u, t)) →
      (t.claims.isSome = true
        ↔ (t.state = TokenState.validated ∨ t.state = TokenState.preTrusted)))
    ∧ ((CERNKeycloakBearerAuthentication.authenticate env stg ebtt hs w).1
        = .ok (some (u, t)) →
      (t.claims.isSome = true
        ↔ (t.state = TokenState.validated ∨ t.state = TokenState.preTrusted))) := by
  constructor
  · intro h
    dsimp only [CERNKeycloakClientSecretAuthentication.authenticate] at h
    split at h
    · simp at h
    · split at h
      · simp at h
      · simp only [Except.ok.injEq, Option.some.injEq, Prod.mk.injEq] at h
        obtain ⟨hu, ht⟩ := h
        subst ht
        simp
  · intro h
    dsimp only [CERNKeycloakBearerAuthentication.authenticate] at h
    split at h
    · simp at h
    · split at h
      · simp at h
      · split at h
        · simp at h
        · rename_i token heq
          simp only [Except.ok.injEq, Option.some.injEq, Prod.mk.injEq] at h
          obtain ⟨hu, ht⟩ := h
          subst ht
          obtain ⟨h1, h2, h3⟩ := validate_ok heq
          rw [h1, h2]
          simp

/-- C7, witnessed on the secret path at the registered secret. -/
theorem c7_witness :
    (CERNKeycloakClientSecretAuthentication.authenticate env0
        [("X-CLIENT-SECRET", HVal.str "s2")] w0).1
      = .ok (some
          ({ token := { access_token := "minted-for-robot-client", kc := kc0
                        unv_claims := claims0, claims := some claims0
                        is_authenticated := true, state := TokenState.preTrusted
                        validateCalled := false } },
           { access_token := "minted-for-robot-client", kc := kc0
             unv_claims := claims0, claims := some claims0
             is_authenticated := true, state := TokenState.preTrusted
             validateCalled := false }))
    ∧ (({ access_token := "minted-for-robot-client", kc := kc0
          unv_claims := claims0, claims := some claims0
          is_authenticated := true, state := TokenState.preTrusted
          validateCalled := false } : CERNKeycloakToken).claims.isSome = true
        ↔ (({ access_token := "minted-for-robot-client", kc := kc0
              unv_claims := claims0, claims := some claims0
              is_authenticated := true, state := TokenState.preTrusted
              validateCalled := false } : CERNKeycloakToken).state
              = TokenState.validated
          ∨ ({ access_token := "minted-for-robot-client", kc := kc0
               unv_claims := claims0, claims := some claims0
               is_authenticated := true, state := TokenState.preTrusted
               validateCalled := false } : CERNKeycloakToken).state
              = TokenState.preTrusted)) :=
  ⟨rfl,
   (c7_claims_iff_validated_or_pretrusted env0 stg0 "public"
      [("X-CLIENT-SECRET", HVal.str "s2")] w0 _ _).1 rfl⟩

/-- C9: on any present string `Authorization` value, `get_access_token`
never raises: it returns the piece after the last occurrence of
`"Bearer "` — the whole value when `"Bearer "` does not occur in it. -/
theorem c9_get_access_token_last_occurrence (hs : Headers) (v : String)
    (hauth : headerGet hs "Authorization" = some (HVal.str v)) :
    ∃ r : String,
      get_access_token hs = .ok r
      ∧ r.toList = lastChunk bearerSep v.toList
      ∧ ((¬ occursIn bearerSep v.toList ∧ r.toList = v.toList)
        ∨ (∃ a, v.toList = a ++ bearerSep ++ r.toList
            ∧ ∀ a' b', v.toList = a' ++ bearerSep ++ b' → a'.length ≤ a.length)) := by
  refine ⟨⟨lastChunk bearerSep v.toList⟩, ?_, rfl, ?_⟩
  · unfold get_access_token
    rw [hauth]
  · have hsep : bearerSep ≠ [] := by decide
    rcases pySplit_spec bearerSep hsep v.toList with ⟨e, hfree⟩ | ⟨a, hdec, hfree, _⟩
    · left
      refine ⟨hfree, ?_⟩
      show lastChunk bearerSep v.toList = v.toList
      unfold lastChunk
      rw [e, List.getLastD_cons]
      rfl
    · right
      exact ⟨a, hdec, fun a' b' h' =>
        lastOcc_maximal bearerSep_borderless (hdec.symm.trans h') hfree⟩

/-- C9, witnessed at the non-bearer value `Basic xyz`, which passes through
unchanged. -/
theorem c9_witness :
    headerGet [("Authorization", HVal.str "Basic xyz")] "Authorization"
      = some (HVal.str "Basic xyz")
    ∧ ∃ r : String,
        get_access_token [("Authorization", HVal.str "Basic xyz")] = .ok r
        ∧ r.toList = lastChunk bearerSep "Basic xyz".toList
        ∧ ((¬ occursIn bearerSep "Basic xyz".toList ∧ r.toList = "Basic xyz".toList)
          ∨ (∃ a, "Basic xyz".toList = a ++ bearerSep ++ r.toList
              ∧ ∀ a' b', "Basic xyz".toList = a' ++ bearerSep ++ b'
                  → a'.length ≤ a.length)) :=
  ⟨rfl, c9_get_access_token_last_occurrence
    [("Authorization", HVal.str "Basic xyz")] "Basic xyz" rfl⟩

end CernSso
